import Mathlib

/-!
# Verification of the catcher-velo-tracker core logic

Shallow embedding of the program-data resolution and schedule-generation
model of the workout tracker: the schedule generator, the exercise
resolver (default merging), workout-program expansion, per-day completion
statistics, the single-day mutations, and the localStorage serialization
round trip.  All definitions are translated from the TypeScript source
(`src/common/utils.ts`, `src/common/types.ts`, and the WorkoutTracker
component); JavaScript-specific behaviour (object spread, `||` fallbacks
with falsy `""`/`0`, truthiness of empty arrays, `replace` rewriting only
the first occurrence) is modelled explicitly.
-/

namespace VeloTracker

/-! ## Dates

A JavaScript `Date` is modelled at day granularity: `day` counts calendar
days (as stepped by `setDate`, which `generateSchedule` uses to add
`weekIndex * 7 + dayIndex` days), and `msOfDay` is the time-of-day
component that `normalizeDate` zeroes.  This abstracts the Gregorian
rendering of the timestamp but keeps exactly the structure the schedule
logic observes.
-/

structure JsDate where
  day : Int
  msOfDay : Nat
deriving Repr, DecidableEq

/-- Function `normalizeDate` from `src/common/utils.ts`: zero the time-of-day
(`setHours(0,0,0,0)`), keeping the calendar day. -/
def normalizeDate (d : JsDate) : JsDate :=
  { d with msOfDay := 0 }

/-- Models `date.setDate(date.getDate() + n)`: step the calendar day by `n`. -/
def addDays (d : JsDate) (n : Int) : JsDate :=
  { d with day := d.day + n }

/-! ## JavaScript value helpers -/

/-- Object-spread field combination: in `\x7b...base, ...override\x7d` a field
defined on the override wins, otherwise the base field is kept. -/
def spreadField {α : Type} (override base : Option α) : Option α :=
  match override with
  | some v => some v
  | none => base

/-- Truthiness of an optional string (`undefined` and `""` are falsy). -/
def truthyStr (o : Option String) : Bool :=
  match o with
  | some s => !(s == "")
  | none => false

/-- Truthiness of an optional number (`undefined` and `0` are falsy). -/
def truthyInt (o : Option Int) : Bool :=
  match o with
  | some n => !(n == 0)
  | none => false

/-- JavaScript `a || b` on optional strings. -/
def jsOrStr (a b : Option String) : Option String :=
  if truthyStr a then a else b

/-- JavaScript `a || b` on optional numbers. -/
def jsOrInt (a b : Option Int) : Option Int :=
  if truthyInt a then a else b

/-- JavaScript property read `m[k]` on an object with string keys,
modelled as an association list with distinct keys. -/
def lookupKey {α : Type} : List (String × α) → String → Option α
  | [], _ => none
  | (k₁, v) :: rest, k => if k₁ = k then some v else lookupKey rest k

/-- JavaScript property write `\x7b...m, [k]: v\x7d` (or `m[k] = v`): replace the
value at `k` in place if the key exists, otherwise append the new entry. -/
def setKey {α : Type} : List (String × α) → String → α → List (String × α)
  | [], k, v => [(k, v)]
  | (k₁, v₁) :: rest, k, v =>
    if k₁ = k then (k, v) :: rest else (k₁, v₁) :: setKey rest k v

/-- Truthiness of an optional boolean (`completed[id]` in a conditional). -/
def truthyBool (o : Option Bool) : Bool := o.getD false

/-! ## Strings

The day-token reduction works on character lists; helpers mirror the
JavaScript string methods used by `getBaseWorkout`
(`split(' OR ')[0]`, `trim()`, `replace('*','')`).
-/

/-- Whitespace for `trim` (the ASCII whitespace actually occurring in
day tokens). -/
def isJsSpace (c : Char) : Bool :=
  c == ' ' || c == '\t' || c == '\n' || c == '\r'

/-- Tests whether `sep` matches at the head of the list. -/
def matchesSep : List Char → List Char → Bool
  | [], _ => true
  | _ :: _, [] => false
  | p :: ps, c :: cs => if p = c then matchesSep ps cs else false

/-- Models `s.split(sep)[0]` for a non-empty separator: the characters before
the first occurrence of `sep`, or all of `s` when `sep` never occurs. -/
def firstSegment (sep : List Char) : List Char → List Char
  | [] => []
  | c :: rest =>
    if matchesSep sep (c :: rest) then []
    else c :: firstSegment sep rest

/-- Models `s.trim()`. -/
def trimChars (s : List Char) : List Char :=
  ((s.dropWhile isJsSpace).reverse.dropWhile isJsSpace).reverse

/-- Models `s.replace` applied to the single-character pattern star: removes only the first
occurrence of `'*'`. -/
def removeFirstStar : List Char → List Char
  | [] => []
  | c :: rest => if c = '*' then rest else c :: removeFirstStar rest

/-- The separator literal `" OR "`. -/
def orSep : List Char := [' ', 'O', 'R', ' ']

/-- Function `getBaseWorkout` from `src/common/utils.ts`:
`workout.split(' OR ')[0].trim().replace('*', '')`. -/
def getBaseWorkoutChars (s : List Char) : List Char :=
  removeFirstStar (trimChars (firstSegment orSep s))

/-- Function `getBaseWorkout` wrapped for `String`. -/
def getBaseWorkout (s : String) : String :=
  ⟨getBaseWorkoutChars s.data⟩

/-- Strip every trailing `'*'` from a character list. -/
def dropTrailingStars (l : List Char) : List Char :=
  (l.reverse.dropWhile (· == '*')).reverse

/-- The base-workout-name reduction as the specification words it
(claim comparison only): split on `" OR "`, take the first segment,
strip any trailing `'*'`, and trim whitespace — in that order. -/
def specBaseWorkoutChars (s : List Char) : List Char :=
  trimChars (dropTrailingStars (firstSegment orSep s))

/-- ASCII `toLowerCase`, character by character. -/
def toLowerStr (s : String) : String :=
  ⟨s.data.map Char.toLower⟩

/-! ## Data model (`src/common/types.ts`)

The structures mirror the JSON documents: every field that a program or
exercise object may omit at runtime is an `Option`, matching the
defensive runtime checks in the source (the TypeScript annotations are
not enforced on parsed JSON).
-/

/-- An exercise record: base-catalog defaults and per-occurrence
overrides share this shape (`Exercise` in `types.ts`). -/
structure Exercise where
  id : String
  name : Option String := none
  category : Option String := none
  videoUrl : Option String := none
  defaultSets : Option Int := none
  defaultReps : Option String := none
  defaultRpe : Option String := none
  defaultNotes : Option String := none
  sets : Option Int := none
  reps : Option String := none
  rpe : Option String := none
  notes : Option String := none
deriving Repr, DecidableEq

structure WorkoutSection where
  name : String
  exercises : List Exercise
deriving Repr, DecidableEq

structure WorkoutType where
  id : String
  name : String
  colorClass : String
  description : Option String := none
  rpeRange : Option String := none
  notes : Option String := none
  sections : List WorkoutSection
deriving Repr, DecidableEq

structure Week where
  id : Option String := none
  days : List String
deriving Repr, DecidableEq

/-- Field `program.schedule`; `weeks` is optional because `generateSchedule`
guards against its absence at runtime. -/
structure Schedule where
  length : Int := 0
  unit : String := "weeks"
  weeks : Option (List Week)
deriving Repr, DecidableEq

/-- A program definition; `schedule` is optional for the same reason. -/
structure Program where
  id : String
  name : String := ""
  version : String := ""
  description : String := ""
  workoutTypes : List (String × WorkoutType) := []
  schedule : Option Schedule
deriving Repr, DecidableEq

/-- One scheduled day (`DayWorkout` in `types.ts`). -/
structure DayWorkout where
  date : JsDate
  workout : String
  completed : List (String × Bool)
  userNotes : Option String := none
deriving Repr, DecidableEq

abbrev Grid := List (List DayWorkout)

/-- The three-section expansion of a workout (`WorkoutProgram`). -/
structure WorkoutProgram where
  warmup : List Exercise
  throwing : List Exercise
  recovery : List Exercise
  rpeRange : Option String := none
  notes : Option String := none
deriving Repr, DecidableEq

/-- The program context: program data plus the base exercise catalog
(`ProgramConfig` in `program-context.tsx`). -/
structure ProgramConfig where
  programData : Program
  exerciseData : List (String × Exercise)
deriving Repr, DecidableEq

/-! ## Schedule generation (WorkoutTracker component) -/

/-- List map with the element index, as used by `schedule.weeks.map((week,
weekIndex) => ...)`; `i` is the index of the first element. -/
def mapWithIndexFrom {α β : Type} (f : Nat → α → β) (i : Nat) : List α → List β
  | [] => []
  | a :: as => f i a :: mapWithIndexFrom f (i + 1) as

def mapWithIndex {α β : Type} (f : Nat → α → β) (l : List α) : List β :=
  mapWithIndexFrom f 0 l

/-- Function `generateSchedule(startDate, program)`: normalize the start date,
reject a missing schedule or missing weeks list, and lay the week/day
tokens out over consecutive calendar dates. -/
def generateSchedule (startDate : JsDate) (program : Program) :
    Except String Grid :=
  let normalizedStart := normalizeDate startDate
  match program.schedule with
  | none => .error "Invalid program schedule data"
  | some schedule =>
    match schedule.weeks with
    | none => .error "Invalid program schedule data"
    | some weeks =>
      .ok <| mapWithIndex (fun weekIndex week =>
        mapWithIndex (fun dayIndex workout =>
          { date := normalizeDate
              (addDays normalizedStart (((weekIndex * 7) + dayIndex : Nat) : Int))
            workout := workout
            completed := []
            userNotes := none }) week.days) weeks

/-! ## Exercise resolution and workout expansion -/

/-- Function `mergeExerciseWithDefaults` from the WorkoutTracker: look the
occurrence's id up in the base catalog and combine via object spread
`\x7b...baseExercise, ...exercise\x7d` — the occurrence's own fields win. -/
def mergeExerciseWithDefaults (exercises : List (String × Exercise))
    (exercise : Exercise) : Exercise :=
  match lookupKey exercises exercise.id with
  | none => exercise
  | some baseExercise =>
    { id := exercise.id
      name := spreadField exercise.name baseExercise.name
      category := spreadField exercise.category baseExercise.category
      videoUrl := spreadField exercise.videoUrl baseExercise.videoUrl
      defaultSets := spreadField exercise.defaultSets baseExercise.defaultSets
      defaultReps := spreadField exercise.defaultReps baseExercise.defaultReps
      defaultRpe := spreadField exercise.defaultRpe baseExercise.defaultRpe
      defaultNotes := spreadField exercise.defaultNotes baseExercise.defaultNotes
      sets := spreadField exercise.sets baseExercise.sets
      reps := spreadField exercise.reps baseExercise.reps
      rpe := spreadField exercise.rpe baseExercise.rpe
      notes := spreadField exercise.notes baseExercise.notes }

/-- Models `sections.find(s => s.name.toLowerCase() === nm)`. -/
def firstSectionNamed (sections : List WorkoutSection) (nm : String) :
    Option WorkoutSection :=
  match sections with
  | [] => none
  | s :: rest =>
    if toLowerStr s.name = nm then some s else firstSectionNamed rest nm

/-- Models `sections.find(...)?.exercises.map(mergeExerciseWithDefaults) || []`. -/
def expandSection (exercises : List (String × Exercise))
    (sections : List WorkoutSection) (nm : String) : List Exercise :=
  match firstSectionNamed sections nm with
  | some s => s.exercises.map (mergeExerciseWithDefaults exercises)
  | none => []

/-- Function `getWorkoutProgram(workout, programConfig)`: reduce the day token,
look up the workout type, and expand the warmup/throwing/recovery
sections against the base catalog. -/
def getWorkoutProgram (workout : String) (programConfig : ProgramConfig) :
    Option WorkoutProgram :=
  let baseWorkout := getBaseWorkout workout
  match lookupKey programConfig.programData.workoutTypes baseWorkout with
  | none => none
  | some workoutType =>
    some { warmup := expandSection programConfig.exerciseData workoutType.sections "warmup"
           throwing := expandSection programConfig.exerciseData workoutType.sections "throwing"
           recovery := expandSection programConfig.exerciseData workoutType.sections "recovery"
           rpeRange := workoutType.rpeRange
           notes := workoutType.notes }

/-- Models `exercise.sets || exercise.defaultSets` (ExerciseRow). -/
def effectiveSets (e : Exercise) : Option Int := jsOrInt e.sets e.defaultSets

/-- Models `exercise.reps || exercise.defaultReps` (ExerciseRow). -/
def effectiveReps (e : Exercise) : Option String := jsOrStr e.reps e.defaultReps

/-- Models `exercise.rpe || exercise.defaultRpe` (ExerciseRow). -/
def effectiveRpe (e : Exercise) : Option String := jsOrStr e.rpe e.defaultRpe

/-- Models `exercise.notes || exercise.defaultNotes` (ExerciseRow). -/
def effectiveNotes (e : Exercise) : Option String := jsOrStr e.notes e.defaultNotes

/-! ## Per-day completion statistics (WorkoutTracker render loop) -/

/-- Models `[...warmup, ...throwing, ...recovery].length`. -/
def totalExercises (program : WorkoutProgram) : Nat :=
  (program.warmup ++ program.throwing ++ program.recovery).length

/-- Models `program ? [...].length : 0`. -/
def totalForDay (cfg : ProgramConfig) (day : DayWorkout) : Nat :=
  match getWorkoutProgram day.workout cfg with
  | some program => totalExercises program
  | none => 0

/-- Models `Object.values(day.completed).filter(Boolean).length`. -/
def completedCount (completed : List (String × Bool)) : Nat :=
  (completed.filter (fun p => p.2)).length

/-- Flag `isCompleted`: the token resolves, the workout is non-empty, and at
least as many entries are true as there are exercises. -/
def dayIsCompleted (cfg : ProgramConfig) (day : DayWorkout) : Bool :=
  match getWorkoutProgram day.workout cfg with
  | some program =>
    decide (0 < totalExercises program) &&
      decide (totalExercises program ≤ completedCount day.completed)
  | none => false

/-- Flag `inProgress`: the token resolves, something is checked, and the day
is not completed. -/
def dayInProgress (cfg : ProgramConfig) (day : DayWorkout) : Bool :=
  match getWorkoutProgram day.workout cfg with
  | some _ =>
    decide (0 < completedCount day.completed) && !(dayIsCompleted cfg day)
  | none => false

/-- Value `completionPercentage`: `completed / total * 100` when the total is
positive, otherwise `undefined`. -/
def dayCompletionPercentage (cfg : ProgramConfig) (day : DayWorkout) :
    Option ℚ :=
  if 0 < totalForDay cfg day then
    some ((completedCount day.completed : ℚ) / (totalForDay cfg day : ℚ) * 100)
  else none

/-! ## Mutations (WorkoutTracker handlers) -/

/-- Read a day of the grid at `(weekIndex, dayIndex)`. -/
def dayAt (grid : Grid) (weekIndex dayIndex : Nat) : Option DayWorkout :=
  (grid[weekIndex]?).bind (fun week => week[dayIndex]?)

/-- Handler `handleExerciseComplete`: toggle one exercise of one day, replacing
the day's completion map with `\x7b...completed, [id]: !completed[id]\x7d`. -/
def handleExerciseComplete (grid : Grid) (weekIndex dayIndex : Nat)
    (exerciseId : String) : Grid :=
  mapWithIndex (fun wIndex week =>
    mapWithIndex (fun dIndex day =>
      if wIndex = weekIndex ∧ dIndex = dayIndex then
        { day with
          completed := setKey day.completed exerciseId
            (!truthyBool (lookupKey day.completed exerciseId)) }
      else day) week) grid

/-- Handler `handleBatchComplete`: set every listed exercise of one day to the
given completion value. -/
def handleBatchComplete (grid : Grid) (weekIndex dayIndex : Nat)
    (exerciseIds : List String) (completed : Bool) : Grid :=
  mapWithIndex (fun wIndex week =>
    mapWithIndex (fun dIndex day =>
      if wIndex = weekIndex ∧ dIndex = dayIndex then
        { day with
          completed := exerciseIds.foldl
            (fun acc id => setKey acc id completed) day.completed }
      else day) week) grid

/-- Handler `handleNotesUpdate`: replace the user notes of one day. -/
def handleNotesUpdate (grid : Grid) (weekIndex dayIndex : Nat)
    (notes : String) : Grid :=
  mapWithIndex (fun wIndex week =>
    mapWithIndex (fun dIndex day =>
      if wIndex = weekIndex ∧ dIndex = dayIndex then
        { day with userNotes := some notes }
      else day) week) grid

/-! ## Persistence (usePersistedSchedule)

`JSON.stringify` renders each `Date` as its ISO-8601 string; `new
Date(isoString)` parses that rendering back to the identical timestamp.
The rendering is a bijection on timestamps, so the serialized date is
modelled by the timestamp fields it determines.
-/

/-- The ISO-8601 rendering of a timestamp, modelled by the timestamp it
determines (the rendering is injective and parsed back exactly). -/
structure IsoDateString where
  day : Int
  msOfDay : Nat
deriving Repr, DecidableEq

/-- Models `date.toISOString()` (via `JSON.stringify`). -/
def dateToIso (d : JsDate) : IsoDateString := ⟨d.day, d.msOfDay⟩

/-- Models `new Date(isoString)`. -/
def isoToDate (s : IsoDateString) : JsDate := ⟨s.day, s.msOfDay⟩

/-- Interface `SerializedDayWorkout`: the JSON form of a day; `completed` may be
absent in stored data. -/
structure SerializedDayWorkout where
  date : IsoDateString
  workout : String
  completed : Option (List (String × Bool))
  userNotes : Option String := none
deriving Repr, DecidableEq

/-- Models `JSON.stringify` of one day. -/
def serializeDay (day : DayWorkout) : SerializedDayWorkout :=
  { date := dateToIso day.date
    workout := day.workout
    completed := some day.completed
    userNotes := day.userNotes }

/-- The load path of `usePersistedSchedule`:
`\x7b...day, date: new Date(day.date), completed: day.completed || \x7b\x7d\x7d`. -/
def deserializeDay (day : SerializedDayWorkout) : DayWorkout :=
  { date := isoToDate day.date
    workout := day.workout
    completed := day.completed.getD []
    userNotes := day.userNotes }

def serializeSchedule (grid : Grid) : List (List SerializedDayWorkout) :=
  grid.map (fun week => week.map serializeDay)

def deserializeSchedule (saved : List (List SerializedDayWorkout)) : Grid :=
  saved.map (fun week => week.map deserializeDay)

/-! ## Named forms of the per-day updates

Derived names for the update functions the handlers apply to the
targeted day; each is definitionally the record update written inline in
the corresponding handler.
-/

/-- The day generated at `(weekIndex, dayIndex)` by `generateSchedule`. -/
def scheduledDay (S : JsDate) (weekIndex dayIndex : Nat) (workout : String) : DayWorkout :=
  { date := normalizeDate
      (addDays (normalizeDate S) (((weekIndex * 7) + dayIndex : Nat) : Int))
    workout := workout
    completed := []
    userNotes := none }

/-- The completion-map replacement of `handleExerciseComplete`. -/
def toggleDayCompletion (e : String) (day : DayWorkout) : DayWorkout :=
  { day with
    completed := setKey day.completed e (!truthyBool (lookupKey day.completed e)) }

/-- The completion-map replacement of `handleBatchComplete`. -/
def batchDayCompletion (ids : List String) (b : Bool) (day : DayWorkout) : DayWorkout :=
  { day with
    completed := ids.foldl (fun acc eachId => setKey acc eachId b) day.completed }

/-- The notes replacement of `handleNotesUpdate`. -/
def setDayNotes (txt : String) (day : DayWorkout) : DayWorkout :=
  { day with userNotes := some txt }

/-- The net effect on one day of toggling the same exercise twice. -/
def toggleTwiceResult (e : String) (day : DayWorkout) : DayWorkout :=
  if (lookupKey day.completed e).isSome then day
  else { day with completed := day.completed ++ [(e, false)] }

/-! ## Observations used by the relational claims -/

/-- The exercise ids a day's completion map marks `true`, in order. -/
def trueKeys (completed : List (String × Bool)) : List String :=
  (completed.filter (fun p => p.2)).map (fun p => p.1)

/-- Everything the UI observes about a day apart from the raw map:
date, token, notes, and the set of exercises marked complete. -/
def dayObservation (day : DayWorkout) : JsDate × String × Option String × List String :=
  (day.date, day.workout, day.userNotes, trueKeys day.completed)

/-- The per-day completion statistics as a tuple. -/
def dayStats (cfg : ProgramConfig) (day : DayWorkout) :
    Bool × Bool × Option ℚ × Nat :=
  (dayIsCompleted cfg day, dayInProgress cfg day,
    dayCompletionPercentage cfg day, completedCount day.completed)

/-! ## Concrete sample data (for witnesses and counterexamples) -/

/-- A start date with a non-zero time-of-day component. -/
def S0 : JsDate := ⟨738000, 5400000⟩

/-- A seven-token week, as in `program.json`. -/
def week7 : Week :=
  { days := ["Monday", "Tuesday", "Wednesday", "Thursday", "Friday",
             "Saturday", "Sunday"] }

def sampleSchedule : Schedule := { length := 1, unit := "weeks", weeks := some [week7] }

def sampleProgram : Program := { id := "velocity-development", schedule := some sampleSchedule }

/-- A program whose only week lists a single day token. -/
def shortProgram : Program :=
  { id := "short", schedule := some { length := 1, weeks := some [{ days := ["Off"] }] } }

/-- A program whose weeks list is present but empty. -/
def emptyWeeksProgram : Program :=
  { id := "empty", schedule := some { length := 0, weeks := some [] } }

/-- A base-catalog exercise with the full set of default fields. -/
def rowsBase : Exercise :=
  { id := "row-1arm-c2"
    name := some "1-Arm Row"
    category := some "lifting"
    videoUrl := some "https://example.com/row"
    defaultSets := some 3
    defaultReps := some "8 each"
    defaultRpe := some "70%"
    defaultNotes := some "Controlled tempo" }

def sampleCatalog : List (String × Exercise) := [("row-1arm-c2", rowsBase)]

/-- An occurrence that carries its own display name. -/
def namedOccurrence : Exercise := { id := "row-1arm-c2", name := some "Heavy Row" }

/-- An occurrence with only a reps override. -/
def plainOccurrence : Exercise := { id := "row-1arm-c2", reps := some "5" }

/-- An occurrence overriding reps with the empty string. -/
def emptyRepsOccurrence : Exercise := { id := "row-1arm-c2", reps := some "" }

/-- A workout type with no sections at all (a pure rest day). -/
def offType : WorkoutType := { id := "off", name := "Off", colorClass := "bg-gray-100", sections := [] }

def restConfig : ProgramConfig :=
  ⟨{ id := "rest", workoutTypes := [("Off", offType)], schedule := none }, []⟩

/-- A day whose token resolves to the empty workout but whose completion
map carries a stray `true` entry. -/
def ghostDay : DayWorkout :=
  { date := ⟨0, 0⟩, workout := "Off", completed := [("ghost-exercise", true)] }

/-- A day whose token resolves to no workout type. -/
def unknownDay : DayWorkout :=
  { date := ⟨0, 0⟩, workout := "Unknown", completed := [("ghost-exercise", true)] }

/-- A section named like the real `program.json` data: its name does not
lower-case to `warmup`, `throwing`, or `recovery`. -/
def liftSection : WorkoutSection :=
  { name := "Weight Room - Lift 1", exercises := [{ id := "squat-jump-a1" }] }

def mondayType : WorkoutType :=
  { id := "monday", name := "Monday - Day 1", colorClass := "bg-indigo-900",
    sections := [liftSection] }

def mondayConfig : ProgramConfig :=
  ⟨{ id := "velocity-development", workoutTypes := [("Monday", mondayType)],
     schedule := none }, []⟩

def warmupSection : WorkoutSection :=
  { name := "Warmup", exercises := [{ id := "dynamic-warmup" }] }

def throwingSection : WorkoutSection :=
  { name := "Throwing", exercises := [{ id := "step-backs", reps := some "4 each" },
                                      { id := "row-1arm-c2", reps := some "5" }] }

def recoverySection : WorkoutSection :=
  { name := "Recovery", exercises := [{ id := "post-throw-heavy" }] }

def hybridType : WorkoutType :=
  { id := "hybrid-a", name := "Hybrid A", colorClass := "bg-blue-100",
    rpeRange := some "60-80%",
    sections := [warmupSection, throwingSection, recoverySection] }

def hybridConfig : ProgramConfig :=
  ⟨{ id := "p", workoutTypes := [("Hybrid A", hybridType)], schedule := none },
   sampleCatalog⟩

/-! ## Helper lemmas -/

theorem length_mapWithIndexFrom {α β : Type} (f : Nat → α → β) (i : Nat)
    (l : List α) : (mapWithIndexFrom f i l).length = l.length := by
  induction l generalizing i with
  | nil => rfl
  | cons a as ih => simp [mapWithIndexFrom, ih]

theorem length_mapWithIndex {α β : Type} (f : Nat → α → β) (l : List α) :
    (mapWithIndex f l).length = l.length :=
  length_mapWithIndexFrom f 0 l

theorem getElem?_mapWithIndexFrom {α β : Type} (f : Nat → α → β) (i n : Nat)
    (l : List α) : (mapWithIndexFrom f i l)[n]? = (l[n]?).map (f (i + n)) := by
  induction l generalizing i n with
  | nil => simp [mapWithIndexFrom]
  | cons a as ih =>
    cases n with
    | zero => simp [mapWithIndexFrom]
    | succ n =>
      simp only [mapWithIndexFrom, List.getElem?_cons_succ, ih]
      have harith : i + 1 + n = i + (n + 1) := by omega
      rw [harith]

theorem getElem?_mapWithIndex {α β : Type} (f : Nat → α → β) (n : Nat)
    (l : List α) : (mapWithIndex f l)[n]? = (l[n]?).map (f n) := by
  rw [mapWithIndex, getElem?_mapWithIndexFrom, Nat.zero_add]

theorem dayAt_mapShape (f : Nat → Nat → DayWorkout → DayWorkout) (g : Grid)
    (w d : Nat) :
    dayAt (mapWithIndex (fun wI week => mapWithIndex (fun dI day => f wI dI day) week) g) w d
      = (dayAt g w d).map (f w d) := by
  unfold dayAt
  rw [getElem?_mapWithIndex]
  cases h : g[w]? with
  | none => rfl
  | some week =>
    exact getElem?_mapWithIndex (fun dI day => f w dI day) d week

/-- Reading any cell of a single-cell update: the targeted cell gets the
update applied, every other cell is returned unchanged. -/
theorem dayAt_update (upd : DayWorkout → DayWorkout) (g : Grid)
    (wI dI w d : Nat) :
    dayAt (mapWithIndex (fun wIndex week => mapWithIndex (fun dIndex day =>
        if wIndex = wI ∧ dIndex = dI then upd day else day) week) g) w d
      = if w = wI ∧ d = dI then (dayAt g w d).map upd else dayAt g w d := by
  rw [dayAt_mapShape (fun wIndex dIndex day =>
    if wIndex = wI ∧ dIndex = dI then upd day else day)]
  by_cases h : w = wI ∧ d = dI
  · simp [h]
  · simp only [if_neg h]
    cases dayAt g w d <;> simp [h]

theorem dayAt_handleExerciseComplete (g : Grid) (wI dI : Nat) (e : String)
    (w d : Nat) :
    dayAt (handleExerciseComplete g wI dI e) w d
      = if w = wI ∧ d = dI then (dayAt g w d).map (toggleDayCompletion e)
        else dayAt g w d :=
  dayAt_update (toggleDayCompletion e) g wI dI w d

theorem dayAt_handleBatchComplete (g : Grid) (wI dI : Nat) (ids : List String)
    (b : Bool) (w d : Nat) :
    dayAt (handleBatchComplete g wI dI ids b) w d
      = if w = wI ∧ d = dI then (dayAt g w d).map (batchDayCompletion ids b)
        else dayAt g w d :=
  dayAt_update (batchDayCompletion ids b) g wI dI w d

theorem dayAt_handleNotesUpdate (g : Grid) (wI dI : Nat) (txt : String)
    (w d : Nat) :
    dayAt (handleNotesUpdate g wI dI txt) w d
      = if w = wI ∧ d = dI then (dayAt g w d).map (setDayNotes txt)
        else dayAt g w d :=
  dayAt_update (setDayNotes txt) g wI dI w d

theorem lookupKey_setKey {α : Type} (m : List (String × α)) (k : String)
    (v : α) : lookupKey (setKey m k v) k = some v := by
  induction m with
  | nil => simp [setKey, lookupKey]
  | cons p rest ih =>
    obtain ⟨k₁, v₁⟩ := p
    by_cases h : k₁ = k
    · simp [setKey, h, lookupKey]
    · simp [setKey, h, lookupKey, ih]

theorem setKey_setKey {α : Type} (m : List (String × α)) (k : String)
    (v₁ v₂ : α) : setKey (setKey m k v₁) k v₂ = setKey m k v₂ := by
  induction m with
  | nil => simp [setKey]
  | cons p rest ih =>
    obtain ⟨k₁, v₁⟩ := p
    by_cases h : k₁ = k
    · simp [setKey, h]
    · simp [setKey, h, ih]

theorem setKey_of_lookup_eq {α : Type} (m : List (String × α)) (k : String)
    (v : α) (h : lookupKey m k = some v) : setKey m k v = m := by
  induction m with
  | nil => simp [lookupKey] at h
  | cons p rest ih =>
    obtain ⟨k₁, v₁⟩ := p
    by_cases hk : k₁ = k
    · subst hk
      simp [lookupKey] at h
      simp [setKey, h]
    · simp [lookupKey, hk] at h
      simp [setKey, hk, ih h]

theorem setKey_of_lookup_none {α : Type} (m : List (String × α)) (k : String)
    (v : α) (h : lookupKey m k = none) : setKey m k v = m ++ [(k, v)] := by
  induction m with
  | nil => simp [setKey]
  | cons p rest ih =>
    obtain ⟨k₁, v₁⟩ := p
    by_cases hk : k₁ = k
    · simp [lookupKey, hk] at h
    · simp [lookupKey, hk] at h
      simp [setKey, hk, ih h]

/-- Toggling the same exercise twice: an existing entry is restored
exactly; a missing entry becomes an explicit `false` entry at the end. -/
theorem toggle_toggle_map (m : List (String × Bool)) (e : String) :
    setKey (setKey m e (!truthyBool (lookupKey m e))) e
        (!truthyBool (lookupKey (setKey m e (!truthyBool (lookupKey m e))) e))
      = if (lookupKey m e).isSome then m else m ++ [(e, false)] := by
  cases h : lookupKey m e with
  | none =>
    rw [lookupKey_setKey, setKey_setKey]
    simpa [truthyBool] using setKey_of_lookup_none m e false h
  | some b =>
    rw [lookupKey_setKey, setKey_setKey]
    simpa [truthyBool] using setKey_of_lookup_eq m e b h

theorem trueKeys_append_false (m : List (String × Bool)) (e : String) :
    trueKeys (m ++ [(e, false)]) = trueKeys m := by
  simp [trueKeys, List.filter_append]

theorem completedCount_append_false (m : List (String × Bool)) (e : String) :
    completedCount (m ++ [(e, false)]) = completedCount m := by
  simp [completedCount, List.filter_append]

theorem spreadField_none_right {α : Type} (o : Option α) :
    spreadField o none = o := by
  cases o <;> rfl

theorem spreadField_none_left {α : Type} (b : Option α) :
    spreadField none b = b := rfl

/-- Lemma: `removeFirstStar` walks past star-free characters. -/
theorem removeFirstStar_append_no_star (g l : List Char) (h : '*' ∉ g) :
    removeFirstStar (g ++ l) = g ++ removeFirstStar l := by
  induction g with
  | nil => rfl
  | cons c t ih =>
    have hc : c ≠ '*' := fun hc => h (hc ▸ List.mem_cons_self c t)
    have ht : '*' ∉ t := fun ht => h (List.mem_cons_of_mem c ht)
    simp [removeFirstStar, hc, ih ht]

theorem removeFirstStar_no_star (l : List Char) (h : '*' ∉ l) :
    removeFirstStar l = l := by
  have hx := removeFirstStar_append_no_star l [] h
  simpa [removeFirstStar] using hx

theorem dropWhile_no_star (l : List Char) (h : '*' ∉ l) :
    l.dropWhile (· == '*') = l := by
  cases l with
  | nil => rfl
  | cons a t =>
    have ha : a ≠ '*' := fun hc => h (hc ▸ List.mem_cons_self a t)
    simp [List.dropWhile_cons, ha]

/-- On a list whose only possible star is the final character, removing
the first star and stripping trailing stars agree. -/
theorem removeFirstStar_eq_dropTrailingStars (f : List Char)
    (h : '*' ∉ f.dropLast) : removeFirstStar f = dropTrailingStars f := by
  cases hrev : f.reverse with
  | nil =>
    have : f = [] := by simpa using congrArg List.reverse hrev
    subst this
    rfl
  | cons c t =>
    have hf : f = t.reverse ++ [c] := by
      have := congrArg List.reverse hrev
      simpa using this
    subst hf
    have hg : '*' ∉ t.reverse := by
      simpa [List.dropLast_concat] using h
    by_cases hc : c = '*'
    · subst hc
      have hgt : '*' ∉ t := fun hm => hg (List.mem_reverse.mpr hm)
      rw [removeFirstStar_append_no_star _ _ hg]
      unfold dropTrailingStars
      rw [List.reverse_append, List.reverse_reverse]
      simp only [List.reverse_cons, List.reverse_nil, List.nil_append,
        List.singleton_append, List.dropWhile_cons]
      simp only [beq_self_eq_true, if_true]
      rw [dropWhile_no_star t hgt]
      simp [removeFirstStar]
    · have hstar : '*' ∉ t.reverse ++ [c] := by
        intro hmem
        rcases List.mem_append.mp hmem with hmem | hmem
        · exact hg hmem
        · simp at hmem
          exact hc hmem.symm
      rw [removeFirstStar_no_star _ hstar]
      unfold dropTrailingStars
      rw [List.reverse_append, List.reverse_reverse]
      simp only [List.reverse_cons, List.reverse_nil, List.nil_append,
        List.singleton_append, List.dropWhile_cons]
      have hc2 : (c == '*') = false := by simpa using hc
      rw [hc2]
      simp


/-! ## Claim C7: the base-workout-name reduction -/

/-- C7 counterexample: on the token "Hybrid A*B" the code removes the
first `'*'` wherever it occurs, producing "Hybrid AB", while the
claimed recipe (strip a trailing `'*'` only, then trim) leaves the token
unchanged — so the claimed recipe does not equal `getBaseWorkout`. -/
theorem getBaseWorkout_star_counterexample :
    getBaseWorkoutChars ("Hybrid A*B".data) = ("Hybrid AB".data)
    ∧ specBaseWorkoutChars ("Hybrid A*B".data) = ("Hybrid A*B".data)
    ∧ getBaseWorkoutChars ("Hybrid A*B".data) ≠ specBaseWorkoutChars ("Hybrid A*B".data) :=
  ⟨by decide, by decide, by decide⟩

/-- C7 (amended): `getBaseWorkout` splits on `" OR "`, takes the first
segment, trims it, and then deletes the first `'*'` wherever it occurs;
this agrees with the spec recipe (strip trailing stars, then trim) on
every token whose first segment is already trimmed, has no `'*'` before
its last character, and stays trimmed after the trailing stars are
stripped — and in particular "Recovery OR Hybrid B*" reduces to
"Recovery". -/
theorem getBaseWorkout_reduction (s : List Char)
    (h₁ : trimChars (firstSegment orSep s) = firstSegment orSep s)
    (h₂ : '*' ∉ (firstSegment orSep s).dropLast)
    (h₃ : trimChars (dropTrailingStars (firstSegment orSep s))
          = dropTrailingStars (firstSegment orSep s)) :
    getBaseWorkoutChars s = specBaseWorkoutChars s
    ∧ getBaseWorkout "Recovery OR Hybrid B*" = "Recovery" := by
  constructor
  · unfold getBaseWorkoutChars specBaseWorkoutChars
    rw [h₁, h₃]
    exact removeFirstStar_eq_dropTrailingStars _ h₂
  · decide

/-- C7 witness: the agreement theorem applied to the concrete token
"Recovery OR Hybrid B*". -/
theorem getBaseWorkout_reduction_witness :
    trimChars (firstSegment orSep ("Recovery OR Hybrid B*".data))
        = firstSegment orSep ("Recovery OR Hybrid B*".data)
    ∧ '*' ∉ (firstSegment orSep ("Recovery OR Hybrid B*".data)).dropLast
    ∧ (getBaseWorkoutChars ("Recovery OR Hybrid B*".data)
          = specBaseWorkoutChars ("Recovery OR Hybrid B*".data)
        ∧ getBaseWorkout "Recovery OR Hybrid B*" = "Recovery") :=
  ⟨by decide, by decide,
    getBaseWorkout_reduction ("Recovery OR Hybrid B*".data)
      (by decide) (by decide) (by decide)⟩

/-! ## Claim C2: when schedule generation fails -/

/-- C2 counterexample: a program whose `schedule.weeks` is present but
empty does NOT make `generateSchedule` fail — an empty array is truthy
in JavaScript, so the guard passes and an empty grid is returned. -/
theorem generateSchedule_empty_weeks_counterexample :
    (emptyWeeksProgram.schedule.bind Schedule.weeks) = some []
    ∧ generateSchedule S0 emptyWeeksProgram = Except.ok [] :=
  ⟨rfl, rfl⟩

/-- C2 (amended): `generateSchedule` raises the configuration error if
and only if the program's `schedule` is absent or its `weeks` field is
absent; an empty `weeks` list passes the guard and yields an empty
grid, not an error. -/
theorem generateSchedule_error_iff (S : JsDate) (P : Program) :
    (∃ msg, generateSchedule S P = Except.error msg)
      ↔ (P.schedule = none ∨ ∃ sch, P.schedule = some sch ∧ sch.weeks = none) := by
  cases hs : P.schedule with
  | none =>
    simp [generateSchedule, hs]
  | some sch =>
    cases hw : sch.weeks with
    | none => simp [generateSchedule, hs, hw]
    | some weeks => simp [generateSchedule, hs, hw]

/-! ## Claim C3: resolution preserves base identity fields -/

/-- C3 counterexample: the merge is the object spread
`\x7b...base, ...occurrence\x7d`, so an occurrence that carries its own
`name` overrides the base name — the resolved name is the occurrence's,
not the base's. -/
theorem merge_name_override_counterexample :
    lookupKey sampleCatalog namedOccurrence.id = some rowsBase
    ∧ (mergeExerciseWithDefaults sampleCatalog namedOccurrence).name = some "Heavy Row"
    ∧ rowsBase.name = some "1-Arm Row"
    ∧ (mergeExerciseWithDefaults sampleCatalog namedOccurrence).name ≠ rowsBase.name :=
  ⟨rfl, rfl, rfl, by decide⟩

/-- C3 (amended): for an occurrence that does not itself define `name`,
`category`, or `videoUrl` — as the occurrences in `program.json` do not
— the resolved exercise takes all three from the base record; an
occurrence that does define one of them overrides it (occurrence fields
always win in the spread). -/
theorem merge_preserves_base_identity (catalog : List (String × Exercise))
    (O B : Exercise) (h : lookupKey catalog O.id = some B)
    (hn : O.name = none) (hc : O.category = none) (hv : O.videoUrl = none) :
    (mergeExerciseWithDefaults catalog O).name = B.name
    ∧ (mergeExerciseWithDefaults catalog O).category = B.category
    ∧ (mergeExerciseWithDefaults catalog O).videoUrl = B.videoUrl := by
  simp [mergeExerciseWithDefaults, h, hn, hc, hv, spreadField]

/-- C3 witness: the identity-preservation theorem applied to the
occurrence that only overrides reps. -/
theorem merge_preserves_base_identity_witness :
    lookupKey sampleCatalog plainOccurrence.id = some rowsBase
    ∧ plainOccurrence.name = none
    ∧ ((mergeExerciseWithDefaults sampleCatalog plainOccurrence).name = rowsBase.name
        ∧ (mergeExerciseWithDefaults sampleCatalog plainOccurrence).category = rowsBase.category
        ∧ (mergeExerciseWithDefaults sampleCatalog plainOccurrence).videoUrl = rowsBase.videoUrl) :=
  ⟨rfl, rfl,
    merge_preserves_base_identity sampleCatalog plainOccurrence rowsBase rfl rfl rfl rfl⟩

/-! ## Claim C4: effective sets/reps/RPE/notes -/

/-- C4 counterexample: an occurrence that overrides `reps` with the
empty string is falsy under the `||` fallback of the exercise row, so
the displayed reps are the base default, not the occurrence's value —
contradicting "the effective displayed value is O's value when O
defines that field". -/
theorem effectiveReps_empty_override_counterexample :
    emptyRepsOccurrence.reps = some ""
    ∧ lookupKey sampleCatalog emptyRepsOccurrence.id = some rowsBase
    ∧ effectiveReps (mergeExerciseWithDefaults sampleCatalog emptyRepsOccurrence) = some "8 each"
    ∧ effectiveReps (mergeExerciseWithDefaults sampleCatalog emptyRepsOccurrence)
        ≠ emptyRepsOccurrence.reps :=
  ⟨rfl, rfl, rfl, by decide⟩

/-- C4 (amended): for an occurrence `O` (carrying only override fields)
resolved against a base `B` (carrying only default fields), each of the
four effective display values is `O`'s value when that value is truthy
(a non-empty string, a non-zero sets count), else `B`'s default; an
override of `""` or `0` falls through to the default.  In particular a
defined non-empty reps override is displayed as is, and an undefined
one falls back to `B.defaultReps`. -/
theorem effective_fields_override (catalog : List (String × Exercise))
    (O B : Exercise) (h : lookupKey catalog O.id = some B)
    (hO : O.defaultSets = none ∧ O.defaultReps = none ∧ O.defaultRpe = none
          ∧ O.defaultNotes = none)
    (hB : B.sets = none ∧ B.reps = none ∧ B.rpe = none ∧ B.notes = none) :
    effectiveSets (mergeExerciseWithDefaults catalog O) = jsOrInt O.sets B.defaultSets
    ∧ effectiveReps (mergeExerciseWithDefaults catalog O) = jsOrStr O.reps B.defaultReps
    ∧ effectiveRpe (mergeExerciseWithDefaults catalog O) = jsOrStr O.rpe B.defaultRpe
    ∧ effectiveNotes (mergeExerciseWithDefaults catalog O) = jsOrStr O.notes B.defaultNotes
    ∧ (∀ r, O.reps = some r → r ≠ "" →
        effectiveReps (mergeExerciseWithDefaults catalog O) = some r)
    ∧ (O.reps = none →
        effectiveReps (mergeExerciseWithDefaults catalog O) = B.defaultReps) := by
  obtain ⟨hO₁, hO₂, hO₃, hO₄⟩ := hO
  obtain ⟨hB₁, hB₂, hB₃, hB₄⟩ := hB
  refine ⟨?_, ?_, ?_, ?_, ?_, ?_⟩
  · simp [mergeExerciseWithDefaults, h, effectiveSets, hO₁, hB₁,
      spreadField_none_right, spreadField_none_left]
  · simp [mergeExerciseWithDefaults, h, effectiveReps, hO₂, hB₂,
      spreadField_none_right, spreadField_none_left]
  · simp [mergeExerciseWithDefaults, h, effectiveRpe, hO₃, hB₃,
      spreadField_none_right, spreadField_none_left]
  · simp [mergeExerciseWithDefaults, h, effectiveNotes, hO₄, hB₄,
      spreadField_none_right, spreadField_none_left]
  · intro r hr hne
    simp [mergeExerciseWithDefaults, h, effectiveReps, hO₂, hB₂, hr,
      spreadField_none_right, spreadField_none_left, jsOrStr, truthyStr, hne]
  · intro hr
    simp [mergeExerciseWithDefaults, h, effectiveReps, hO₂, hB₂, hr,
      spreadField_none_right, spreadField_none_left, jsOrStr, truthyStr]

/-- C4 witness: the override rule applied to the concrete occurrence
overriding reps with "5" against the sample base record. -/
theorem effective_fields_override_witness :
    lookupKey sampleCatalog plainOccurrence.id = some rowsBase
    ∧ plainOccurrence.defaultReps = none
    ∧ rowsBase.reps = none
    ∧ (effectiveSets (mergeExerciseWithDefaults sampleCatalog plainOccurrence)
          = jsOrInt plainOccurrence.sets rowsBase.defaultSets
        ∧ effectiveReps (mergeExerciseWithDefaults sampleCatalog plainOccurrence)
          = jsOrStr plainOccurrence.reps rowsBase.defaultReps
        ∧ effectiveRpe (mergeExerciseWithDefaults sampleCatalog plainOccurrence)
          = jsOrStr plainOccurrence.rpe rowsBase.defaultRpe
        ∧ effectiveNotes (mergeExerciseWithDefaults sampleCatalog plainOccurrence)
          = jsOrStr plainOccurrence.notes rowsBase.defaultNotes
        ∧ (∀ r, plainOccurrence.reps = some r → r ≠ "" →
            effectiveReps (mergeExerciseWithDefaults sampleCatalog plainOccurrence) = some r)
        ∧ (plainOccurrence.reps = none →
            effectiveReps (mergeExerciseWithDefaults sampleCatalog plainOccurrence)
              = rowsBase.defaultReps)) :=
  ⟨rfl, rfl, rfl,
    effective_fields_override sampleCatalog plainOccurrence rowsBase rfl
      ⟨rfl, rfl, rfl, rfl⟩ ⟨rfl, rfl, rfl, rfl⟩⟩

/-! ## Claim C5: statistics on a day with zero exercises -/

/-- C5 counterexample: a day whose token resolves to a workout with
zero exercises but whose completion map holds a stray `true` entry is
reported as in progress — `isInProgress` is `completed > 0 AND NOT
isComplete`, with no guard on the total. -/
theorem zero_total_inProgress_counterexample :
    totalForDay restConfig ghostDay = 0
    ∧ dayInProgress restConfig ghostDay = true :=
  ⟨rfl, rfl⟩

/-- C5 (amended): on a day whose expanded workout has zero exercises,
the percentage is undefined (not zero) and `isComplete` is false
whatever the completion map holds; `isInProgress`, however, is false
only when the workout token does not resolve or no completion entry is
true — when the token resolves to an empty workout and the map has a
true entry, `isInProgress` is true. -/
theorem zero_total_stats (cfg : ProgramConfig) (day : DayWorkout)
    (h : totalForDay cfg day = 0) :
    dayCompletionPercentage cfg day = none
    ∧ dayIsCompleted cfg day = false
    ∧ dayInProgress cfg day
        = ((getWorkoutProgram day.workout cfg).isSome
            && decide (0 < completedCount day.completed)) := by
  refine ⟨?_, ?_, ?_⟩
  · simp [dayCompletionPercentage, h]
  · unfold dayIsCompleted
    cases hp : getWorkoutProgram day.workout cfg with
    | none => rfl
    | some program =>
      have ht : totalExercises program = 0 := by
        simpa [totalForDay, hp] using h
      simp [ht]
  · unfold dayInProgress dayIsCompleted
    cases hp : getWorkoutProgram day.workout cfg with
    | none => rfl
    | some program =>
      have ht : totalExercises program = 0 := by
        simpa [totalForDay, hp] using h
      simp [ht]

/-- C5 witness: the theorem applied to a day whose token resolves to no
workout type at all (total 0, everything reported idle). -/
theorem zero_total_stats_witness :
    totalForDay restConfig unknownDay = 0
    ∧ (dayCompletionPercentage restConfig unknownDay = none
        ∧ dayIsCompleted restConfig unknownDay = false
        ∧ dayInProgress restConfig unknownDay
            = ((getWorkoutProgram unknownDay.workout restConfig).isSome
                && decide (0 < completedCount unknownDay.completed))) :=
  ⟨by decide, zero_total_stats restConfig unknownDay (by decide)⟩

/-! ## Claim C6: workout expansion and its sections -/

/-- C6 counterexample: a workout type whose only section is named like
the real program data ("Weight Room - Lift 1") expands to an empty
workout — the expansion keeps only sections whose lower-cased name is
exactly `warmup`, `throwing`, or `recovery`, and omits every other
section together with its exercises. -/
theorem expansion_omits_section_counterexample :
    (lookupKey mondayConfig.programData.workoutTypes "Monday").map
        (fun wt => wt.sections.map (fun s => s.exercises.length)) = some [1]
    ∧ getWorkoutProgram "Monday" mondayConfig
        = some { warmup := [], throwing := [], recovery := [] }
    ∧ (getWorkoutProgram "Monday" mondayConfig).map totalExercises = some 0 :=
  ⟨rfl, rfl, rfl⟩

/-- C6 (amended): for a resolving token, the expansion keeps, for each
of the names `warmup`, `throwing` and `recovery`, the first section
whose lower-cased name matches, resolving its occurrences in order
through the resolver (and an absent name yields an empty list); all
other sections are omitted. -/
theorem getWorkoutProgram_sections (cfg : ProgramConfig) (workout : String)
    (wt : WorkoutType)
    (h : lookupKey cfg.programData.workoutTypes (getBaseWorkout workout) = some wt) :
    ∃ wp, getWorkoutProgram workout cfg = some wp
      ∧ (∀ s, firstSectionNamed wt.sections "warmup" = some s →
          wp.warmup = s.exercises.map (mergeExerciseWithDefaults cfg.exerciseData))
      ∧ (firstSectionNamed wt.sections "warmup" = none → wp.warmup = [])
      ∧ (∀ s, firstSectionNamed wt.sections "throwing" = some s →
          wp.throwing = s.exercises.map (mergeExerciseWithDefaults cfg.exerciseData))
      ∧ (firstSectionNamed wt.sections "throwing" = none → wp.throwing = [])
      ∧ (∀ s, firstSectionNamed wt.sections "recovery" = some s →
          wp.recovery = s.exercises.map (mergeExerciseWithDefaults cfg.exerciseData))
      ∧ (firstSectionNamed wt.sections "recovery" = none → wp.recovery = [])
      ∧ wp.rpeRange = wt.rpeRange ∧ wp.notes = wt.notes := by
  refine ⟨{ warmup := expandSection cfg.exerciseData wt.sections "warmup"
            throwing := expandSection cfg.exerciseData wt.sections "throwing"
            recovery := expandSection cfg.exerciseData wt.sections "recovery"
            rpeRange := wt.rpeRange
            notes := wt.notes }, ?_, ?_, ?_, ?_, ?_, ?_, ?_, rfl, rfl⟩
  · simp [getWorkoutProgram, h]
  · intro s hs
    simp [expandSection, hs]
  · intro hs
    simp [expandSection, hs]
  · intro s hs
    simp [expandSection, hs]
  · intro hs
    simp [expandSection, hs]
  · intro s hs
    simp [expandSection, hs]
  · intro hs
    simp [expandSection, hs]

/-- C6 witness: the section-expansion theorem applied to a config whose
workout type carries warmup, throwing and recovery sections. -/
theorem getWorkoutProgram_sections_witness :
    lookupKey hybridConfig.programData.workoutTypes (getBaseWorkout "Hybrid A")
        = some hybridType
    ∧ (∃ wp, getWorkoutProgram "Hybrid A" hybridConfig = some wp
        ∧ (∀ s, firstSectionNamed hybridType.sections "warmup" = some s →
            wp.warmup = s.exercises.map (mergeExerciseWithDefaults hybridConfig.exerciseData))
        ∧ (firstSectionNamed hybridType.sections "warmup" = none → wp.warmup = [])
        ∧ (∀ s, firstSectionNamed hybridType.sections "throwing" = some s →
            wp.throwing = s.exercises.map (mergeExerciseWithDefaults hybridConfig.exerciseData))
        ∧ (firstSectionNamed hybridType.sections "throwing" = none → wp.throwing = [])
        ∧ (∀ s, firstSectionNamed hybridType.sections "recovery" = some s →
            wp.recovery = s.exercises.map (mergeExerciseWithDefaults hybridConfig.exerciseData))
        ∧ (firstSectionNamed hybridType.sections "recovery" = none → wp.recovery = [])
        ∧ wp.rpeRange = hybridType.rpeRange ∧ wp.notes = hybridType.notes) :=
  ⟨by decide, getWorkoutProgram_sections hybridConfig "Hybrid A" hybridType (by decide)⟩

/-! ## Claim C1: the generated grid -/

/-- C1 counterexample: `generateSchedule` never checks that a week
lists seven day tokens; on a program whose (non-empty) weeks list has a
single one-token week it succeeds and produces a week with one day, not
seven. -/
theorem generateSchedule_short_week_counterexample :
    (shortProgram.schedule.bind Schedule.weeks).map List.length = some 1
    ∧ (generateSchedule S0 shortProgram).toOption.map (fun g => g.map List.length)
        = some [1] :=
  ⟨rfl, rfl⟩

/-- C1 (amended): for a program with a present weeks list,
`generateSchedule` returns one generated week per schedule week, each
with exactly as many days as that week lists day tokens (seven when the
program lists seven); the day at (w, d) carries the date
`normalize(S) + (w*7 + d)` days at local midnight, with (0,0) carrying
`normalize(S)` itself, an empty completion map, and no user notes. -/
theorem generateSchedule_grid_spec (S : JsDate) (P : Program) (sch : Schedule)
    (weeks : List Week) (hs : P.schedule = some sch)
    (hw : sch.weeks = some weeks) :
    ∃ grid : Grid, generateSchedule S P = Except.ok grid
      ∧ grid.length = weeks.length
      ∧ (∀ (w : Nat) (week : List DayWorkout), grid[w]? = some week →
          ∃ wk : Week, weeks[w]? = some wk ∧ week.length = wk.days.length)
      ∧ (∀ (w d : Nat) (day : DayWorkout), dayAt grid w d = some day →
          day.date = normalizeDate (addDays (normalizeDate S) (((w * 7) + d : Nat) : Int))
          ∧ day.completed = [] ∧ day.userNotes = none
          ∧ ∃ wk : Week, weeks[w]? = some wk ∧ wk.days[d]? = some day.workout)
      ∧ (∀ day : DayWorkout, dayAt grid 0 0 = some day → day.date = normalizeDate S) := by
  have hmain : ∀ (w d : Nat) (day : DayWorkout),
      dayAt (mapWithIndex (fun weekIndex week =>
        mapWithIndex (scheduledDay S weekIndex) week.days) weeks) w d = some day →
      day.date = normalizeDate (addDays (normalizeDate S) (((w * 7) + d : Nat) : Int))
      ∧ day.completed = [] ∧ day.userNotes = none
      ∧ ∃ wk : Week, weeks[w]? = some wk ∧ wk.days[d]? = some day.workout := by
    intro w d day hday
    unfold dayAt at hday
    rw [getElem?_mapWithIndex] at hday
    cases hk : weeks[w]? with
    | none => rw [hk] at hday; simp at hday
    | some wk =>
      rw [hk] at hday
      have hday₂ : (mapWithIndex (scheduledDay S w) wk.days)[d]? = some day := hday
      rw [getElem?_mapWithIndex] at hday₂
      cases ht : wk.days[d]? with
      | none => rw [ht] at hday₂; simp at hday₂
      | some tok =>
        rw [ht] at hday₂
        have hday₃ : scheduledDay S w d tok = day := Option.some.inj hday₂
        subst hday₃
        exact ⟨rfl, rfl, rfl, wk, rfl, ht⟩
  refine ⟨mapWithIndex (fun weekIndex week =>
      mapWithIndex (scheduledDay S weekIndex) week.days) weeks,
    ?_, ?_, ?_, hmain, ?_⟩
  · simp only [generateSchedule, hs, hw]
    rfl
  · exact length_mapWithIndex _ weeks
  · intro w week hweek
    rw [getElem?_mapWithIndex] at hweek
    cases hk : weeks[w]? with
    | none => rw [hk] at hweek; simp at hweek
    | some wk =>
      rw [hk] at hweek
      have hweek₂ : mapWithIndex (scheduledDay S w) wk.days = week :=
        Option.some.inj hweek
      refine ⟨wk, rfl, ?_⟩
      rw [← hweek₂]
      exact length_mapWithIndex _ wk.days
  · intro day hday
    have hd := (hmain 0 0 day hday).1
    rw [hd]
    simp [normalizeDate, addDays]

/-- C1 witness: the grid specification instantiated on the sample
one-week seven-day program. -/
theorem generateSchedule_grid_spec_witness :
    sampleProgram.schedule = some sampleSchedule
    ∧ sampleSchedule.weeks = some [week7]
    ∧ (∃ grid : Grid, generateSchedule S0 sampleProgram = Except.ok grid
        ∧ grid.length = [week7].length
        ∧ (∀ (w : Nat) (week : List DayWorkout), grid[w]? = some week →
            ∃ wk : Week, [week7][w]? = some wk ∧ week.length = wk.days.length)
        ∧ (∀ (w d : Nat) (day : DayWorkout), dayAt grid w d = some day →
            day.date = normalizeDate (addDays (normalizeDate S0) (((w * 7) + d : Nat) : Int))
            ∧ day.completed = [] ∧ day.userNotes = none
            ∧ ∃ wk : Week, [week7][w]? = some wk ∧ wk.days[d]? = some day.workout)
        ∧ (∀ day : DayWorkout, dayAt grid 0 0 = some day →
            day.date = normalizeDate S0)) :=
  ⟨rfl, rfl, generateSchedule_grid_spec S0 sampleProgram sampleSchedule [week7] rfl rfl⟩

/-! ## Claim C8: mutations touch exactly one day -/

/-- C8: each of the three mutations, read back at any cell, returns
every non-targeted day unchanged, and at the targeted cell replaces only
the day's completion map (toggle, batch set) or notes field (set notes),
keeping its date, workout token, and the other field. -/
theorem mutations_single_day_frame (g : Grid) (wI dI : Nat) (eid : String)
    (ids : List String) (b : Bool) (txt : String) :
    (∀ w d, dayAt (handleExerciseComplete g wI dI eid) w d
        = if w = wI ∧ d = dI then (dayAt g w d).map (toggleDayCompletion eid)
          else dayAt g w d)
    ∧ (∀ w d, dayAt (handleBatchComplete g wI dI ids b) w d
        = if w = wI ∧ d = dI then (dayAt g w d).map (batchDayCompletion ids b)
          else dayAt g w d)
    ∧ (∀ w d, dayAt (handleNotesUpdate g wI dI txt) w d
        = if w = wI ∧ d = dI then (dayAt g w d).map (setDayNotes txt)
          else dayAt g w d) :=
  ⟨fun w d => dayAt_handleExerciseComplete g wI dI eid w d,
   fun w d => dayAt_handleBatchComplete g wI dI ids b w d,
   fun w d => dayAt_handleNotesUpdate g wI dI txt w d⟩

/-! ## Claim C9: persistence round trip -/

/-- C9: deserializing a serialized grid reconstructs the grid exactly —
dates restored as date values, completion maps and notes equal — and a
serialized day lacking a completed map deserializes with an empty
completion map rather than an error. -/
theorem serialize_deserialize_roundtrip :
    (∀ grid : Grid, deserializeSchedule (serializeSchedule grid) = grid)
    ∧ (∀ (iso : IsoDateString) (w : String) (u : Option String),
        deserializeDay { date := iso, workout := w, completed := none, userNotes := u }
          = { date := isoToDate iso, workout := w, completed := [], userNotes := u }) := by
  constructor
  · intro grid
    have hcomp : deserializeDay ∘ serializeDay = id := funext fun day => rfl
    simp [deserializeSchedule, serializeSchedule, List.map_map, hcomp]
  · intro iso w u
    rfl

/-! ## Claim C10: toggling twice is observationally the identity -/

/-- Toggling the same exercise twice, at the level of one day: an
existing entry is restored exactly; a missing entry becomes an explicit
trailing `false` entry. -/
theorem toggle_twice_day (day : DayWorkout) (e : String) :
    toggleDayCompletion e (toggleDayCompletion e day) = toggleTwiceResult e day := by
  simp only [toggleDayCompletion, toggleTwiceResult]
  rw [toggle_toggle_map]
  by_cases hl : (lookupKey day.completed e).isSome
  · simp [hl]
  · simp [hl]

/-- Per-day statistics depend only on the workout token and the number
of true completion entries. -/
theorem dayStats_congr (cfg : ProgramConfig) (day₁ day₂ : DayWorkout)
    (hw : day₁.workout = day₂.workout)
    (hc : completedCount day₁.completed = completedCount day₂.completed) :
    dayStats cfg day₁ = dayStats cfg day₂ := by
  unfold dayStats dayInProgress dayIsCompleted dayCompletionPercentage totalForDay
  rw [hw, hc]

/-- C10: toggling the same exercise of the same day twice leaves every
cell's observation (date, token, notes, list of exercises marked true)
and every completion statistic unchanged; structurally, the only
possible difference is an explicit trailing `false` entry for the
toggled exercise where the targeted day previously had no entry. -/
theorem toggle_twice_preserves (g : Grid) (wI dI : Nat) (e : String) :
    (∀ w d, dayAt (handleExerciseComplete (handleExerciseComplete g wI dI e) wI dI e) w d
        = if w = wI ∧ d = dI then (dayAt g w d).map (toggleTwiceResult e)
          else dayAt g w d)
    ∧ (∀ w d,
        (dayAt (handleExerciseComplete (handleExerciseComplete g wI dI e) wI dI e) w d).map
            dayObservation
          = (dayAt g w d).map dayObservation)
    ∧ (∀ cfg w d,
        (dayAt (handleExerciseComplete (handleExerciseComplete g wI dI e) wI dI e) w d).map
            (dayStats cfg)
          = (dayAt g w d).map (dayStats cfg)) := by
  have hcell : ∀ w d,
      dayAt (handleExerciseComplete (handleExerciseComplete g wI dI e) wI dI e) w d
        = if w = wI ∧ d = dI then (dayAt g w d).map (toggleTwiceResult e)
          else dayAt g w d := by
    intro w d
    rw [dayAt_handleExerciseComplete, dayAt_handleExerciseComplete]
    by_cases hc : w = wI ∧ d = dI
    · simp only [if_pos hc]
      cases dayAt g w d with
      | none => rfl
      | some day => exact congrArg some (toggle_twice_day day e)
    · simp only [if_neg hc]
  refine ⟨hcell, ?_, ?_⟩
  · intro w d
    rw [hcell w d]
    by_cases hc : w = wI ∧ d = dI
    · simp only [if_pos hc]
      cases dayAt g w d with
      | none => rfl
      | some day =>
        refine congrArg some ?_
        unfold toggleTwiceResult
        by_cases hl : (lookupKey day.completed e).isSome
        · simp [hl]
        · simp [hl, dayObservation, trueKeys_append_false]
    · simp only [if_neg hc]
  · intro cfg w d
    rw [hcell w d]
    by_cases hc : w = wI ∧ d = dI
    · simp only [if_pos hc]
      cases dayAt g w d with
      | none => rfl
      | some day =>
        refine congrArg some ?_
        unfold toggleTwiceResult
        by_cases hl : (lookupKey day.completed e).isSome
        · simp [hl]
        · simp only [if_neg hl]
          exact dayStats_congr cfg
            { day with completed := day.completed ++ [(e, false)] } day rfl
            (completedCount_append_false day.completed e)
    · simp only [if_neg hc]

end VeloTracker
